import Mathlib

/-!
Verification development for the tinydrm MIPI DBI helper library
(`mipi-dbi.c`).  The definitions below are a shallow embedding of the C
functions: machine bytes are `Nat` values reduced `% 256` where the C code
stores into a `u8`, error returns are `Int` values mirroring the Linux
`-Exxx` convention, and bus traffic is recorded explicitly so that theorems
can talk about which wire transfers a call issues.
-/

namespace MipiDbi

/-- Linux errno value for an invalid argument (`EINVAL`); the C code returns
`-EINVAL`. -/
def EINVAL : Int := 22

/-- Linux errno value for permission denied (`EACCES`); the C code returns
`-EACCES`. -/
def EACCES : Int := 13

/-! ## Command classification (`mipi_dbi_command_is_read`) -/

/-- Numeric values of the `MIPI_DCS_*` entries of the C array
`mipi_dbi_dcs_read_commands`, in order, including the trailing `0`
sentinel. -/
def mipi_dbi_dcs_read_commands : List Nat :=
  [0x04, 0x06, 0x07, 0x08, 0x09, 0x0A, 0x0B, 0x0C, 0x0D, 0x0E, 0x0F,
   0x2E, 0x3E, 0x45, 0x52, 0x54, 0x56, 0x5F, 0xA1, 0xA8, 0x00]

/-- Access to the `mipi_dbi_dcs_read_commands` array by index, as the C loop
reads it (`mipi->read_commands[i]`). -/
def dcsReadTbl (i : Nat) : Nat := mipi_dbi_dcs_read_commands.getD i 0

/-- Loop of `mipi_dbi_command_is_read`: scan the table from index `i` with
the given remaining iteration count (the C loop runs `i` from `0` while
`i < 0xff`); a zero entry terminates the scan with `false`, a matching entry
returns `true`. -/
def isReadGo (tbl : Nat → Nat) (cmd : Nat) : Nat → Nat → Bool
  | _, 0 => false
  | i, fuel + 1 =>
    if tbl i = 0 then false
    else if cmd = tbl i then true
    else isReadGo tbl cmd (i + 1) fuel

/-- Model of `mipi_dbi_command_is_read`: `read_commands` is the device's
table pointer (`none` models a NULL pointer, in which case the function
returns `false`). -/
def mipi_dbi_command_is_read (read_commands : Option (Nat → Nat)) (cmd : Nat) : Bool :=
  match read_commands with
  | none => false
  | some tbl => isReadGo tbl cmd 0 0xff

/-! ## Emulated 9-bit packing (`mipi_dbi_spi1e_transfer`) -/

/-- Model of the C macro `SHIFT_U9_INTO_U64`: set the control bit of slot
`pos` (bit `63 - pos*9`) and place the source byte in the 8 bits below it
(bits `63-8-pos*9 ..`). -/
def SHIFT_U9_INTO_U64 (dst src pos : Nat) : Nat :=
  (dst ||| (1 <<< (63 - pos * 9))) ||| ((src % 256) <<< (55 - pos * 9))

/-- Big-endian byte decomposition of a 64-bit scratch word, as stored by
`cpu_to_be64` into 8 consecutive bytes. -/
def be64 (tmp : Nat) : List Nat :=
  (List.range 8).map (fun j => (tmp >>> (56 - 8 * j)) % 256)

/-- Branch `chunk < 8` of the loop ("pad at end of block"): pack the `chunk`
bytes starting at `pos` into the low slots of the scratch word, leave the
remaining bits zero, and append a zero ninth byte. -/
def padBlock (src : Nat → Nat) (pos chunk : Nat) : List Nat :=
  be64 ((List.range chunk).foldl (fun tmp j => SHIFT_U9_INTO_U64 tmp (src (pos + j)) j) 0)
    ++ [0]

/-- One full 8-source-byte group: 7 bytes packed into the scratch word, the
64th bit forced on (`tmp |= 0x1`), and the 8th byte appended as the ninth
output byte. -/
def fullBlock (src : Nat → Nat) (pos : Nat) : List Nat :=
  be64 (((List.range 7).foldl (fun tmp j => SHIFT_U9_INTO_U64 tmp (src (pos + j)) j) 0) ||| 1)
    ++ [src (pos + 7) % 256]

/-- Bytes written by `n` consecutive iterations of the inner
`for (i = 0; i < chunk; i += 8)` loop, starting at source offset `pos`. -/
def fullBlocks (src : Nat → Nat) (pos : Nat) : Nat → List Nat
  | 0 => []
  | n + 1 => fullBlock src pos ++ fullBlocks src (pos + 8) n

/-- Outer `while (len)` loop of `mipi_dbi_spi1e_transfer` on the data path
(`dc = 1`): returns the list of wire transfers issued, each a list of bytes.
`msc` is `max_src_chunk`.  Each iteration takes `chunk = min len msc` source
bytes; a chunk below 8 is emitted as one zero-padded block, otherwise the
inner loop writes `ceil(chunk/8)` nine-byte groups of which the first
`chunk + ceil(chunk/8)` bytes are sent (`tr.len = chunk + added`).  The last
argument is recursion fuel: the caller passes `len`, which suffices because
the code guarantees `8 ≤ msc`, so every iteration consumes at least one
source byte. -/
def spi1eLoop (src : Nat → Nat) : Nat → Nat → Nat → Nat → List (List Nat)
  | _, _, _, 0 => []
  | pos, len, msc, fuel + 1 =>
    if len = 0 then []
    else
      let chunk := min len msc
      if chunk < 8 then
        padBlock src pos chunk :: spi1eLoop src (pos + chunk) (len - chunk) msc fuel
      else
        let ngroups := (chunk + 7) / 8
        (fullBlocks src pos ngroups).take (chunk + ngroups) ::
          spi1eLoop src (pos + 8 * ngroups) (len - chunk) msc fuel

/-- Model of `mipi_dbi_spi1e_transfer`.  `src` is the input buffer viewed as
a byte stream indexed from 0 (the C code can read past the logical end of
the buffer, so the model keeps the stream total); `len` is the input length
and `max_chunk` the maximum wire-transfer size (after the external
`tinydrm_spi_max_transfer_size` clamp).  Returns the `int` result paired
with the wire transfers issued, on a bus where every `spi_sync` succeeds. -/
def mipi_dbi_spi1e_transfer (dc : Bool) (src : Nat → Nat) (len max_chunk : Nat) :
    Int × List (List Nat) :=
  if max_chunk < 9 then (-EINVAL, [])
  else if dc = false then
    if len ≠ 1 then (-EINVAL, [])
    else (0, [[0, 0, 0, 0, 0, 0, 0, 0, src 0 % 256]])
  else
    let msc0 := max_chunk / 9 * 8
    let msc1 := min msc0 len
    let msc := max 8 (msc1 / 8 * 8)
    (0, spi1eLoop src 0 len msc len)

/-- Total number of wire bytes across a list of transfers. -/
def wireBytes (trs : List (List Nat)) : Nat := (trs.map List.length).sum

/-! ## Transport-mode selection (`mipi_dbi_spi_init`, `mipi_dbi_spi1_transfer`) -/

/-- Which command implementation `mipi_dbi_spi_init` installs in
`mipi->command`. -/
inductive CommandFn
  | typec1
  | typec3
deriving DecidableEq

/-- Selection made by `mipi_dbi_spi_init`: with a D/C gpio present the Type C
Option 3 command function is installed, otherwise Type C Option 1. -/
def spi_init_command (dc_present : Bool) : CommandFn :=
  if dc_present then CommandFn.typec3 else CommandFn.typec1

/-- Dispatch inside `mipi_dbi_spi1_transfer`: when the SPI master does not
support 9 bits per word the call falls through to
`mipi_dbi_spi1e_transfer`, otherwise native 9-bit words are used. -/
inductive Spi1Path
  | native9
  | emulated9
deriving DecidableEq

/-- Selection made at the top of `mipi_dbi_spi1_transfer` from
`tinydrm_spi_bpw_supported(spi, 9)`. -/
def spi1_transfer_path (bpw9 : Bool) : Spi1Path :=
  if bpw9 then Spi1Path.native9 else Spi1Path.emulated9

/-- The three wire encodings of the spec's Transport Selector. -/
inductive TransportMode
  | Native9Bit
  | Emulated9BitOver8Bit
  | EightBitWithControlLine
deriving DecidableEq

/-- Transport mode a device ends up using, obtained by composing the setup
choice of `mipi_dbi_spi_init` with the dispatch of
`mipi_dbi_spi1_transfer`. -/
def transport_mode (dc_present bpw9 : Bool) : TransportMode :=
  match spi_init_command dc_present with
  | CommandFn.typec3 => TransportMode.EightBitWithControlLine
  | CommandFn.typec1 =>
    match spi1_transfer_path bpw9 with
    | Spi1Path.native9 => TransportMode.Native9Bit
    | Spi1Path.emulated9 => TransportMode.Emulated9BitOver8Bit

/-! ## Type C Option 3 read path (`mipi_dbi_typec3_command_read`) -/

/-- Numeric value of `MIPI_DCS_GET_DISPLAY_ID`. -/
def MIPI_DCS_GET_DISPLAY_ID : Nat := 0x04

/-- Numeric value of `MIPI_DCS_GET_DISPLAY_STATUS`. -/
def MIPI_DCS_GET_DISPLAY_STATUS : Nat := 0x09

/-- Result of a call to the read path: the `int` return value, the bytes
stored into the caller's `data` buffer, and the lengths of the wire
transfers issued (the command-byte transfer and the receive transfer of the
single `spi_sync` message; empty when the call fails before touching the
bus). -/
structure ReadResult where
  ret : Int
  data : List Nat
  transfers : List Nat
deriving DecidableEq

/-- Body of `mipi_dbi_typec3_command_read` from the `kmalloc` on: `rxlen` is
`tr[1].len` (either `len` or `len + 1` for the quirky commands), `bus i` the
`i`-th raw byte clocked in, `spi_ret` the result of `spi_sync`.  On success
the data is either copied verbatim (`rxlen = len`) or rebuilt as
`(buf[i] << 1) | !!(buf[i+1] & BIT(7))` truncated to a byte. -/
def typec3ReadBody (len rxlen : Nat) (bus : Nat → Nat) (spi_ret : Int) : ReadResult :=
  if spi_ret ≠ 0 then ⟨spi_ret, [], [1, rxlen]⟩
  else if rxlen = len then
    ⟨0, (List.range len).map (fun i => bus i % 256), [1, rxlen]⟩
  else
    ⟨0,
     (List.range len).map (fun i =>
       (((bus i % 256) <<< 1) |||
         (if (bus (i + 1) % 256) &&& 128 ≠ 0 then 1 else 0)) % 256),
     [1, rxlen]⟩

/-- Model of `mipi_dbi_typec3_command_read`: checks the requested length,
the `write_only` flag and the legacy-command quirk in program order, then
runs the bus transaction. -/
def mipi_dbi_typec3_command_read (write_only : Bool) (cmd len : Nat)
    (bus : Nat → Nat) (spi_ret : Int) : ReadResult :=
  if len = 0 then ⟨-EINVAL, [], []⟩
  else if write_only then ⟨-EACCES, [], []⟩
  else if cmd = MIPI_DCS_GET_DISPLAY_ID ∨ cmd = MIPI_DCS_GET_DISPLAY_STATUS then
    if ¬(len = 3 ∨ len = 4) then ⟨-EINVAL, [], []⟩
    else typec3ReadBody len (len + 1) bus spi_ret
  else typec3ReadBody len len bus spi_ret

/-! ## Flush pipeline (`mipi_dbi_fb_dirty`) -/

/-- Numeric value of `MIPI_DCS_SET_COLUMN_ADDRESS`. -/
def MIPI_DCS_SET_COLUMN_ADDRESS : Nat := 0x2A

/-- Numeric value of `MIPI_DCS_SET_PAGE_ADDRESS`. -/
def MIPI_DCS_SET_PAGE_ADDRESS : Nat := 0x2B

/-- Numeric value of `MIPI_DCS_WRITE_MEMORY_START`. -/
def MIPI_DCS_WRITE_MEMORY_START : Nat := 0x2C

/-- Merged dirty rectangle (`struct drm_clip_rect`). -/
structure ClipRect where
  x1 : Nat
  y1 : Nat
  x2 : Nat
  y2 : Nat
deriving DecidableEq

/-- The two framebuffer formats `mipi_dbi_buf_copy` accepts. -/
inductive PixFormat
  | RGB565
  | XRGB8888
deriving DecidableEq

/-- A command issued through the Command Dispatcher during a flush:
`cmd code params` is a `mipi_dbi_command` invocation with its explicit
parameter bytes, `cmdBuf code len` a `mipi_dbi_command_buf` invocation whose
parameter stream has the given byte length. -/
inductive IssuedCmd
  | cmd (code : Nat) (params : List Nat)
  | cmdBuf (code : Nat) (len : Nat)
deriving DecidableEq

/-- Inputs a single `mipi_dbi_fb_dirty` call receives from its external
collaborators: whether `tinydrm_check_dirty` found pending damage, the
merged clip produced by `tinydrm_merge_clips`, and the results of
`mipi_dbi_buf_copy`, of the memory-write `mipi_dbi_command_buf`, and of
`tinydrm_enable_backlight` (each `0` on success). -/
structure FbDirtyEnv where
  check_dirty : Bool
  clip : ClipRect
  copy_ret : Int
  write_ret : Int
  backlight_ret : Int
deriving DecidableEq

/-- Observable outcome of one `mipi_dbi_fb_dirty` call: the `int` return
value, the `tdev->enabled` flag after the call, whether pixel bytes were
staged through `mipi_dbi_buf_copy` (as opposed to the zero-copy path),
the commands issued, and whether `tinydrm_enable_backlight` was invoked. -/
structure FbDirtyOut where
  ret : Int
  enabled : Bool
  copied : Bool
  cmds : List IssuedCmd
  backlightCalled : Bool
deriving DecidableEq

/-- Modelled from the spec: `tinydrm_merge_clips` lives in the external
tinydrm helpers, not in this file's sources; per the spec's DirtyRegion
model its boolean result is `full := (x1,y1,x2,y2) == (0,0,width,height)`. -/
def clipIsFull (clip : ClipRect) (width height : Nat) : Bool :=
  clip = ⟨0, 0, width, height⟩

/-- Model of `mipi_dbi_fb_dirty` for one device with the given
`mipi->swap_bytes` flag, framebuffer format and dimensions, starting from
enable state `enabled`.  Mirrors the C control flow: early return when no
damage is pending; staging copy unless the clip is the full frame, no swap
is needed and the source is RGB565; column/page address commands (whose
return values the C code ignores); the memory write sized
`(x2-x1)*(y2-y1)*2`; and the first-enable backlight sequencing. -/
def mipi_dbi_fb_dirty (swap_bytes : Bool) (format : PixFormat)
    (width height : Nat) (enabled : Bool) (env : FbDirtyEnv) : FbDirtyOut :=
  if env.check_dirty = false then ⟨0, enabled, false, [], false⟩
  else
    let clip := env.clip
    let full := clipIsFull clip width height
    let needCopy : Bool := !full || swap_bytes || decide (format = PixFormat.XRGB8888)
    if needCopy = true ∧ env.copy_ret ≠ 0 then ⟨env.copy_ret, enabled, true, [], false⟩
    else
      let cmds : List IssuedCmd :=
        [IssuedCmd.cmd MIPI_DCS_SET_COLUMN_ADDRESS
           [(clip.x1 >>> 8) % 256, clip.x1 % 256,
            (clip.x2 >>> 8) % 256, (clip.x2 - 1) % 256],
         IssuedCmd.cmd MIPI_DCS_SET_PAGE_ADDRESS
           [(clip.y1 >>> 8) % 256, clip.y1 % 256,
            (clip.y2 >>> 8) % 256, (clip.y2 - 1) % 256],
         IssuedCmd.cmdBuf MIPI_DCS_WRITE_MEMORY_START
           ((clip.x2 - clip.x1) * (clip.y2 - clip.y1) * 2)]
      if env.write_ret ≠ 0 then ⟨env.write_ret, enabled, needCopy, cmds, false⟩
      else if enabled = false then
        if env.backlight_ret ≠ 0 then ⟨env.backlight_ret, false, needCopy, cmds, true⟩
        else ⟨0, true, needCopy, cmds, true⟩
      else ⟨0, enabled, needCopy, cmds, false⟩

/-! ## Theorems -/

/-- C5: transport-mode selection — a configured D/C control line always
selects the 8-bit/control-line mode regardless of 9-bit capability, and
without one the 9-bit path is native exactly when the transport declares
9-bit word support, emulated otherwise. -/
theorem transport_mode_selection :
    ∀ bpw9 : Bool,
      transport_mode true bpw9 = TransportMode.EightBitWithControlLine ∧
      (transport_mode false bpw9 = TransportMode.Native9Bit ↔ bpw9 = true) ∧
      (transport_mode false bpw9 = TransportMode.Emulated9BitOver8Bit ↔ bpw9 = false) := by
  intro bpw9
  cases bpw9 <;>
    simp [transport_mode, spi_init_command, spi1_transfer_path]

/-- C10: a zero-length read fails with `-EINVAL` before any bus transfer and
before the `write_only` check, so even a write-only device gets `-EINVAL`,
not `-EACCES`. -/
theorem typec3_read_zero_length :
    ∀ (write_only : Bool) (cmd : Nat) (bus : Nat → Nat) (spi_ret : Int),
      (mipi_dbi_typec3_command_read write_only cmd 0 bus spi_ret).ret = -EINVAL ∧
      (mipi_dbi_typec3_command_read write_only cmd 0 bus spi_ret).transfers = [] ∧
      (mipi_dbi_typec3_command_read true cmd 0 bus spi_ret).ret ≠ -EACCES := by
  intro write_only cmd bus spi_ret
  unfold mipi_dbi_typec3_command_read
  simp [EINVAL, EACCES]

/-- C3 counterexample: the claim quantifies over every requested length, but
a zero-length read on a write-only device returns `-EINVAL`, not
`-EACCES`. -/
theorem typec3_read_write_only_cex :
    (mipi_dbi_typec3_command_read true 0x0A 0 (fun _ => 0) 0).ret = -EINVAL ∧
    (mipi_dbi_typec3_command_read true 0x0A 0 (fun _ => 0) 0).ret ≠ -EACCES ∧
    (mipi_dbi_typec3_command_read true 0x0A 0 (fun _ => 0) 0).transfers = [] := by
  decide

/-- C3 (amended): for every read-path call of nonzero requested length on a
write-only device, the call returns `-EACCES` and no bus transfer is
issued. -/
theorem typec3_read_write_only :
    ∀ (cmd len : Nat) (bus : Nat → Nat) (spi_ret : Int), len ≠ 0 →
      (mipi_dbi_typec3_command_read true cmd len bus spi_ret).ret = -EACCES ∧
      (mipi_dbi_typec3_command_read true cmd len bus spi_ret).transfers = [] := by
  intro cmd len bus spi_ret hlen
  unfold mipi_dbi_typec3_command_read
  simp [hlen]

/-- Witness for the amended C3 theorem at a concrete input. -/
theorem typec3_read_write_only_witness :
    (mipi_dbi_typec3_command_read true 0x0A 1 (fun _ => 0) 0).ret = -EACCES ∧
    (mipi_dbi_typec3_command_read true 0x0A 1 (fun _ => 0) 0).transfers = [] :=
  typec3_read_write_only 0x0A 1 (fun _ => 0) 0 (by decide)

/-- C7: on the emulated 9-bit path with control-bit = command (`dc = 0`),
any input length other than one fails with `-EINVAL` and issues no
transfer, and a single byte is sent as one 9-byte block of 8 zero bytes
followed by the data byte. -/
theorem spi1e_command_byte :
    ∀ (src : Nat → Nat) (len max_chunk : Nat), 9 ≤ max_chunk →
      (len ≠ 1 → mipi_dbi_spi1e_transfer false src len max_chunk = (-EINVAL, [])) ∧
      mipi_dbi_spi1e_transfer false src 1 max_chunk =
        (0, [[0, 0, 0, 0, 0, 0, 0, 0, src 0 % 256]]) := by
  intro src len max_chunk hmc
  unfold mipi_dbi_spi1e_transfer
  refine ⟨fun hlen => ?_, ?_⟩
  · simp [hlen, Nat.not_lt.2 hmc]
  · simp [Nat.not_lt.2 hmc]

/-- Witness for the C7 theorem at concrete inputs. -/
theorem spi1e_command_byte_witness :
    mipi_dbi_spi1e_transfer false (fun _ => 0xAB) 2 9 = (-EINVAL, []) ∧
    mipi_dbi_spi1e_transfer false (fun _ => 0xAB) 1 9 =
      (0, [[0, 0, 0, 0, 0, 0, 0, 0, 0xAB]]) :=
  ⟨(spi1e_command_byte (fun _ => 0xAB) 2 9 (by decide)).1 (by decide),
   (spi1e_command_byte (fun _ => 0xAB) 1 9 (by decide)).2⟩

/-- C2: evaluation of the emulated 9-bit data path at input length 25 with
maximum chunk size 18.  The residual chunk of 9 source bytes hits the
`chunk < 8` test as false, the inner loop then packs two 9-byte groups but
`tr.len = chunk + added = 11` truncates the second group, so the total wire
length is 29, not the `ceil(25/8)*9 = 36` the packing law requires, and a
9-byte group is split across the transfer boundary. -/
theorem spi1e_wire_bytes_cex :
    wireBytes (mipi_dbi_spi1e_transfer true (fun _ => 0) 25 18).2 = 29 ∧
    (25 + 7) / 8 * 9 = 36 ∧
    (mipi_dbi_spi1e_transfer true (fun _ => 0) 25 18).2.map List.length = [18, 11] := by
  decide

/-- C1 counterexample: for the merged clip `(0,0,256,2)` on a 256×2 frame
the code issues the column-address command with third parameter byte
`(x2 >> 8) & 0xFF = 1`, whereas the claim requires the high byte of
`x2 - 1 = 255`, which is `0`. -/
theorem fb_dirty_column_third_byte_cex :
    (mipi_dbi_fb_dirty false PixFormat.RGB565 256 2 true
        ⟨true, ⟨0, 0, 256, 2⟩, 0, 0, 0⟩).cmds =
      [IssuedCmd.cmd MIPI_DCS_SET_COLUMN_ADDRESS [0, 0, 1, 255],
       IssuedCmd.cmd MIPI_DCS_SET_PAGE_ADDRESS [0, 0, 0, 1],
       IssuedCmd.cmdBuf MIPI_DCS_WRITE_MEMORY_START 1024] ∧
    ((256 - 1) >>> 8) % 256 ≠ 1 := by
  decide

/-- C1 (amended): every flush that reaches the addressing step issues the
column and page address commands with exactly 4 parameter bytes each: high
and low byte of the inclusive start, then the high byte of the exclusive
end (`x2` resp. `y2`) and the low byte of the inclusive end `x2 - 1` resp.
`y2 - 1`. -/
theorem fb_dirty_addr_window :
    ∀ (swap_bytes : Bool) (format : PixFormat) (w h : Nat) (en : Bool)
      (env : FbDirtyEnv),
      env.check_dirty = true → env.copy_ret = 0 →
      (mipi_dbi_fb_dirty swap_bytes format w h en env).cmds =
        [IssuedCmd.cmd MIPI_DCS_SET_COLUMN_ADDRESS
           [(env.clip.x1 >>> 8) % 256, env.clip.x1 % 256,
            (env.clip.x2 >>> 8) % 256, (env.clip.x2 - 1) % 256],
         IssuedCmd.cmd MIPI_DCS_SET_PAGE_ADDRESS
           [(env.clip.y1 >>> 8) % 256, env.clip.y1 % 256,
            (env.clip.y2 >>> 8) % 256, (env.clip.y2 - 1) % 256],
         IssuedCmd.cmdBuf MIPI_DCS_WRITE_MEMORY_START
           ((env.clip.x2 - env.clip.x1) * (env.clip.y2 - env.clip.y1) * 2)] := by
  intro swap_bytes format w h en env hdirty hcopy
  unfold mipi_dbi_fb_dirty
  simp only [hdirty, hcopy]
  split_ifs <;> simp_all

/-- Witness for the amended C1 theorem at a concrete input. -/
theorem fb_dirty_addr_window_witness :
    (mipi_dbi_fb_dirty false PixFormat.RGB565 10 10 true
        ⟨true, ⟨1, 2, 7, 9⟩, 0, 0, 0⟩).cmds =
      [IssuedCmd.cmd MIPI_DCS_SET_COLUMN_ADDRESS [0, 1, 0, 6],
       IssuedCmd.cmd MIPI_DCS_SET_PAGE_ADDRESS [0, 2, 0, 8],
       IssuedCmd.cmdBuf MIPI_DCS_WRITE_MEMORY_START 84] := by
  have := fb_dirty_addr_window false PixFormat.RGB565 10 10 true
    ⟨true, ⟨1, 2, 7, 9⟩, 0, 0, 0⟩ rfl rfl
  simpa using this

/-- C9: a full-frame flush with a 16-bit source and no byte swap takes the
zero-copy fast path (no staging copy) and issues exactly one column-address
command, one page-address command and one memory write of
`width * height * 2` parameter bytes. -/
theorem fb_dirty_fullframe_fastpath :
    ∀ (w h : Nat) (en : Bool) (env : FbDirtyEnv),
      env.check_dirty = true →
      env.clip = ⟨0, 0, w, h⟩ →
      (mipi_dbi_fb_dirty false PixFormat.RGB565 w h en env).copied = false ∧
      (mipi_dbi_fb_dirty false PixFormat.RGB565 w h en env).cmds =
        [IssuedCmd.cmd MIPI_DCS_SET_COLUMN_ADDRESS
           [0, 0, (w >>> 8) % 256, (w - 1) % 256],
         IssuedCmd.cmd MIPI_DCS_SET_PAGE_ADDRESS
           [0, 0, (h >>> 8) % 256, (h - 1) % 256],
         IssuedCmd.cmdBuf MIPI_DCS_WRITE_MEMORY_START (w * h * 2)] := by
  intro w h en env hdirty hclip
  unfold mipi_dbi_fb_dirty
  simp only [hdirty, hclip, clipIsFull]
  split_ifs <;> simp_all

/-- Witness for the C9 theorem at a concrete input. -/
theorem fb_dirty_fullframe_fastpath_witness :
    (mipi_dbi_fb_dirty false PixFormat.RGB565 4 3 false
        ⟨true, ⟨0, 0, 4, 3⟩, 0, 0, 0⟩).copied = false ∧
    (mipi_dbi_fb_dirty false PixFormat.RGB565 4 3 false
        ⟨true, ⟨0, 0, 4, 3⟩, 0, 0, 0⟩).cmds =
      [IssuedCmd.cmd MIPI_DCS_SET_COLUMN_ADDRESS [0, 0, (4 >>> 8) % 256, (4 - 1) % 256],
       IssuedCmd.cmd MIPI_DCS_SET_PAGE_ADDRESS [0, 0, (3 >>> 8) % 256, (3 - 1) % 256],
       IssuedCmd.cmdBuf MIPI_DCS_WRITE_MEMORY_START (4 * 3 * 2)] :=
  fb_dirty_fullframe_fastpath 4 3 false ⟨true, ⟨0, 0, 4, 3⟩, 0, 0, 0⟩ rfl rfl

/-- C8: backlight-enable sequencing — the collaborator is invoked only from
states where `enabled` is false; `enabled` becomes true only right after a
successful backlight enable; on failure the flag stays false and the error
is returned; a flush never clears the flag, so two consecutive flushes from
an enabled state invoke the collaborator in neither call. -/
theorem fb_dirty_enable_once :
    ∀ (sw : Bool) (fmt : PixFormat) (w h : Nat) (en : Bool) (env : FbDirtyEnv),
      ((mipi_dbi_fb_dirty sw fmt w h en env).backlightCalled = true → en = false) ∧
      ((mipi_dbi_fb_dirty sw fmt w h en env).enabled = true →
        en = true ∨
          ((mipi_dbi_fb_dirty sw fmt w h en env).backlightCalled = true ∧
           env.backlight_ret = 0)) ∧
      (en = true → (mipi_dbi_fb_dirty sw fmt w h en env).enabled = true) ∧
      ((mipi_dbi_fb_dirty sw fmt w h en env).backlightCalled = true →
        env.backlight_ret ≠ 0 →
          (mipi_dbi_fb_dirty sw fmt w h en env).enabled = false ∧
          (mipi_dbi_fb_dirty sw fmt w h en env).ret = env.backlight_ret) ∧
      (∀ env2 : FbDirtyEnv, en = true →
        (mipi_dbi_fb_dirty sw fmt w h en env).backlightCalled = false ∧
        (mipi_dbi_fb_dirty sw fmt w h
            (mipi_dbi_fb_dirty sw fmt w h en env).enabled env2).backlightCalled = false) := by
  intro sw fmt w h en env
  have core : ∀ (e : Bool) (v : FbDirtyEnv),
      ((mipi_dbi_fb_dirty sw fmt w h e v).backlightCalled = true → e = false) ∧
      ((mipi_dbi_fb_dirty sw fmt w h e v).enabled = true →
        e = true ∨
          ((mipi_dbi_fb_dirty sw fmt w h e v).backlightCalled = true ∧
           v.backlight_ret = 0)) ∧
      (e = true → (mipi_dbi_fb_dirty sw fmt w h e v).enabled = true) ∧
      ((mipi_dbi_fb_dirty sw fmt w h e v).backlightCalled = true →
        v.backlight_ret ≠ 0 →
          (mipi_dbi_fb_dirty sw fmt w h e v).enabled = false ∧
          (mipi_dbi_fb_dirty sw fmt w h e v).ret = v.backlight_ret) := by
    intro e v
    unfold mipi_dbi_fb_dirty
    cases e <;> split_ifs <;> simp_all <;> split_ifs <;> simp_all
  refine ⟨(core en env).1, (core en env).2.1, (core en env).2.2.1, (core en env).2.2.2,
    fun env2 hen => ?_⟩
  have h1 : (mipi_dbi_fb_dirty sw fmt w h en env).enabled = true :=
    (core en env).2.2.1 hen
  constructor
  · cases hcall : (mipi_dbi_fb_dirty sw fmt w h en env).backlightCalled with
    | false => rfl
    | true => exact absurd ((core en env).1 hcall) (by simp [hen])
  · cases hcall : (mipi_dbi_fb_dirty sw fmt w h
        (mipi_dbi_fb_dirty sw fmt w h en env).enabled env2).backlightCalled with
    | false => rfl
    | true =>
      exact absurd ((core _ env2).1 hcall) (by simp [h1])

/-- Witness for the C8 theorem: two consecutive flushes from an enabled
state at concrete inputs, neither of which calls the backlight
collaborator. -/
theorem fb_dirty_enable_once_witness :
    (mipi_dbi_fb_dirty false PixFormat.RGB565 4 4 true
        ⟨true, ⟨0, 0, 4, 4⟩, 0, 0, 0⟩).backlightCalled = false ∧
    (mipi_dbi_fb_dirty false PixFormat.RGB565 4 4
        (mipi_dbi_fb_dirty false PixFormat.RGB565 4 4 true
          ⟨true, ⟨0, 0, 4, 4⟩, 0, 0, 0⟩).enabled
        ⟨true, ⟨0, 0, 4, 4⟩, 0, 0, 0⟩).backlightCalled = false :=
  (fb_dirty_enable_once false PixFormat.RGB565 4 4 true
      ⟨true, ⟨0, 0, 4, 4⟩, 0, 0, 0⟩).2.2.2.2 ⟨true, ⟨0, 0, 4, 4⟩, 0, 0, 0⟩ rfl

set_option maxRecDepth 4096 in
/-- Helper: for a byte value, a right shift by 7 equals the C idiom
`!!(b & BIT(7))`. -/
theorem byte_shiftRight7_eq_ite (m : Fin 256) :
    m.val >>> 7 = (if m.val &&& 128 ≠ 0 then 1 else 0) := by
  revert m
  decide

/-- C4: for the identification-read (`04h`) and status-read (`09h`)
commands on a readable device, a requested length of 3 or 4 fetches one
extra raw byte (receive transfer of `len + 1` bytes) and reconstructs
output byte `i` as `(raw[i] << 1) | top_bit(raw[i+1])` truncated to 8 bits;
any other length fails with `-EINVAL` without a bus transfer; and raw bytes
`[0x82, 0x40, 0x10, 0x00]` for a 3-byte identification read reconstruct to
`[0x04, 0x80, 0x20]`. -/
theorem typec3_read_quirk :
    ∀ (cmd len : Nat) (bus : Nat → Nat),
      (cmd = MIPI_DCS_GET_DISPLAY_ID ∨ cmd = MIPI_DCS_GET_DISPLAY_STATUS) →
      ((len = 3 ∨ len = 4) →
        (mipi_dbi_typec3_command_read false cmd len bus 0).ret = 0 ∧
        (mipi_dbi_typec3_command_read false cmd len bus 0).transfers = [1, len + 1] ∧
        (mipi_dbi_typec3_command_read false cmd len bus 0).data =
          (List.range len).map (fun i =>
            (((bus i % 256) <<< 1) ||| ((bus (i + 1) % 256) >>> 7)) % 256)) ∧
      (¬(len = 3 ∨ len = 4) →
        (mipi_dbi_typec3_command_read false cmd len bus 0).ret = -EINVAL ∧
        (mipi_dbi_typec3_command_read false cmd len bus 0).transfers = []) ∧
      (mipi_dbi_typec3_command_read false MIPI_DCS_GET_DISPLAY_ID 3
          (fun i => [0x82, 0x40, 0x10, 0x00].getD i 0) 0).data = [0x04, 0x80, 0x20] := by
  intro cmd len bus hcmd
  refine ⟨fun hlen => ?_, fun hlen => ?_, by decide⟩
  · have hlen0 : ¬len = 0 := by omega
    unfold mipi_dbi_typec3_command_read typec3ReadBody
    simp only [hlen0, hcmd, hlen, if_false, if_true, Bool.false_eq_true,
      not_true_eq_false, not_false_eq_true, ite_true, ite_false]
    rw [if_neg (by simp), if_neg (Nat.succ_ne_self len)]
    refine ⟨rfl, rfl, ?_⟩
    apply List.map_congr_left
    intro i _
    rw [byte_shiftRight7_eq_ite ⟨bus (i + 1) % 256, Nat.mod_lt _ (by norm_num)⟩]
  · unfold mipi_dbi_typec3_command_read
    by_cases hlen0 : len = 0
    · rw [if_pos hlen0]
      exact ⟨rfl, rfl⟩
    · rw [if_neg hlen0, if_neg (by simp), if_pos hcmd, if_pos hlen]
      exact ⟨rfl, rfl⟩

/-- Witness for the C4 theorem at a concrete input. -/
theorem typec3_read_quirk_witness :
    (mipi_dbi_typec3_command_read false MIPI_DCS_GET_DISPLAY_ID 3
        (fun i => [0x82, 0x40, 0x10, 0x00].getD i 0) 0).ret = 0 ∧
    (mipi_dbi_typec3_command_read false MIPI_DCS_GET_DISPLAY_ID 3
        (fun i => [0x82, 0x40, 0x10, 0x00].getD i 0) 0).data = [0x04, 0x80, 0x20] :=
  ⟨((typec3_read_quirk MIPI_DCS_GET_DISPLAY_ID 3
      (fun i => [0x82, 0x40, 0x10, 0x00].getD i 0) (Or.inl rfl)).1 (Or.inl rfl)).1,
   (typec3_read_quirk MIPI_DCS_GET_DISPLAY_ID 3
      (fun i => [0x82, 0x40, 0x10, 0x00].getD i 0) (Or.inl rfl)).2.2⟩

/-- Helper: the table scan only depends on the entries up to an index where
the table holds the terminator; two tables that agree up to such an index
classify every command alike. -/
theorem isReadGo_stop_at_zero (tbl tblB : Nat → Nat) (cmd : Nat) :
    ∀ (fuel i n : Nat), i ≤ n → tbl n = 0 →
      (∀ k, i ≤ k → k ≤ n → tblB k = tbl k) →
      isReadGo tbl cmd i fuel = isReadGo tblB cmd i fuel := by
  intro fuel
  induction fuel with
  | zero => intro i n _ _ _; rfl
  | succ fuel ih =>
    intro i n hin hz hag
    simp only [isReadGo]
    rw [hag i le_rfl hin]
    by_cases h0 : tbl i = 0
    · simp [h0]
    · by_cases hc : cmd = tbl i
      · simp [h0, hc]
      · have hi : i ≠ n := fun he => h0 (he ▸ hz)
        simp only [h0, hc, if_false]
        exact ih (i + 1) n (by omega) hz (fun k hk1 hk2 => hag k (by omega) hk2)

/-- Helper: the scan never classifies the terminator value itself as a read
command — a matching entry would have stopped the scan as a terminator
first. -/
theorem isReadGo_zero_cmd (tbl : Nat → Nat) :
    ∀ fuel i, isReadGo tbl 0 i fuel = false := by
  intro fuel
  induction fuel with
  | zero => intro i; rfl
  | succ fuel ih =>
    intro i
    simp only [isReadGo]
    by_cases h0 : tbl i = 0
    · simp [h0]
    · have hne : ¬(0 = tbl i) := fun he => h0 (Eq.symm he)
      simp [h0, hne, ih]

set_option maxRecDepth 8192 in
/-- C6: command classification is a total function of the command byte
(hence deterministic); for every byte it returns true exactly when the byte
occurs in the registered table strictly before the terminator; the scan
never depends on entries past a terminator entry; and the terminator value
itself is never classified as a read. -/
theorem command_is_read_spec :
    (∀ cmd : Fin 256,
      mipi_dbi_command_is_read (some dcsReadTbl) cmd.val =
        decide (cmd.val ∈ mipi_dbi_dcs_read_commands.takeWhile (fun b => decide (b ≠ 0)))) ∧
    (∀ (tbl tblB : Nat → Nat) (cmd n : Nat), tbl n = 0 →
        (∀ k, k ≤ n → tblB k = tbl k) →
        mipi_dbi_command_is_read (some tbl) cmd = mipi_dbi_command_is_read (some tblB) cmd) ∧
    (∀ read_commands : Option (Nat → Nat),
        mipi_dbi_command_is_read read_commands 0 = false) := by
  refine ⟨by decide, ?_, ?_⟩
  · intro tbl tblB cmd n hz hag
    unfold mipi_dbi_command_is_read
    exact isReadGo_stop_at_zero tbl tblB cmd 0xff 0 n (Nat.zero_le n) hz
      (fun k _ hk2 => hag k hk2)
  · intro read_commands
    cases read_commands with
    | none => rfl
    | some tbl => exact isReadGo_zero_cmd tbl 0xff 0

/-- Witness for the C6 theorem: the concrete table and a table that differs
only past the terminator classify the memory-read command `0x2E` alike. -/
theorem command_is_read_spec_witness :
    mipi_dbi_command_is_read (some dcsReadTbl) 0x2E =
      mipi_dbi_command_is_read
        (some (fun i => if i ≤ 20 then dcsReadTbl i else 0x2E)) 0x2E :=
  command_is_read_spec.2.1 dcsReadTbl
    (fun i => if i ≤ 20 then dcsReadTbl i else 0x2E) 0x2E 20 (by decide)
    (fun k hk => by simp [hk])

end MipiDbi
